import Mathlib

/-!
Verification development for the NTRT tensegrity toolkit sources: the
UpperLimbModel structure-description client, the T6RestLengthController
observer, and the structure-to-model resolution and runtime lifecycle
protocol they exercise.

Doubles are modelled as rationals: every comparison the claims touch is
an exact comparison in the source. Definitions carry the source
location they embed; parts of the toolkit that are only called by these
sources (tgStructure, tgBuildSpec resolution, tgModel, tgSubject,
tgSimulation) are modelled from the specification and say so.
-/

namespace NTRT

/-! ## Basic data: vectors, errors, actuator state -/

/-- A 3D vector with rational coordinates, modelling btVector3. -/
structure Vec3 where
  x : ℚ
  y : ℚ
  z : ℚ
deriving DecidableEq, Repr

/-- Translation of a point by an offset vector. -/
def Vec3.add (v p : Vec3) : Vec3 :=
  ⟨p.x + v.x, p.y + v.y, p.z + v.z⟩

/-- Error thrown by the controller and lifecycle code under study;
std::invalid_argument maps to invalidArgument. -/
inductive CtrlError where
  | invalidArgument
deriving DecidableEq, Repr

/-- State of one tgLinearString cable actuator as the controller sees
it: the initial (start) length, the current rest length, and the rest
of the actuator state (tension here) that the controller never
touches. -/
structure Muscle where
  startLength : ℚ
  restLength : ℚ
  tension : ℚ
deriving DecidableEq, Repr

/-- The T6Model subject: the controller only uses its muscle list. -/
structure T6Model where
  muscles : List Muscle
deriving DecidableEq, Repr

/-- T6Model::getAllMuscles, the accessor the controller reads. -/
def T6Model.getAllMuscles (m : T6Model) : List Muscle :=
  m.muscles

/-! ## T6RestLengthController (T6RestLengthController.cpp) -/

/-- The controller state: the single member m_restLengthDiff. -/
structure T6RestLengthController where
  m_restLengthDiff : ℚ
deriving DecidableEq, Repr

/-- T6RestLengthController::T6RestLengthController
(T6RestLengthController.cpp lines 38-45): the member is initialised to
the argument, then restLengthDiff less than 0.0 throws
std::invalid_argument, so no controller value is produced in that
case. -/
def T6RestLengthController.make (restLengthDiff : ℚ) :
    Except CtrlError T6RestLengthController :=
  if restLengthDiff < 0 then .error .invalidArgument
  else .ok ⟨restLengthDiff⟩

/-- T6RestLengthController::onSetup (T6RestLengthController.cpp lines
47-68): for each muscle of subject.getAllMuscles, in order, set its
rest length with setRestLengthSingleStep to getStartLength minus
m_restLengthDiff. -/
def T6RestLengthController.onSetup (c : T6RestLengthController)
    (subject : T6Model) : T6Model :=
  ⟨(subject.getAllMuscles).map
    (fun mu => { mu with restLength := mu.startLength - c.m_restLengthDiff })⟩

/-- T6RestLengthController::onStep (T6RestLengthController.cpp lines
72-95): throws std::invalid_argument when dt is not positive;
otherwise it reads the muscle list and computes each desired rest
length, but the write (setRestLengthSingleCall, line 92) is commented
out, so the subject is returned unchanged. -/
def T6RestLengthController.onStep (c : T6RestLengthController)
    (subject : T6Model) (dt : ℚ) : Except CtrlError T6Model :=
  if dt ≤ 0 then .error .invalidArgument
  else
    let muscles := subject.getAllMuscles
    let _desired := muscles.map (fun mu => mu.startLength - c.m_restLengthDiff)
    .ok subject

/-! ## Geometric graph (tgStructure) and its resolution

tgStructure, tgBuildSpec and tgStructureInfo live in the toolkit's
tgcreator library, which these sources only call; the definitions
below therefore follow the specification's contracts for them, applied
to the graph data that UpperLimbModel.cpp builds. -/

/-- A tagged connection between two node indices of the owning
scope. -/
structure Pair where
  n1 : Nat
  n2 : Nat
  tags : List String
deriving DecidableEq, Repr

/-- Modelled from the spec: a Geometric Graph (tgStructure) owns a
list of nodes, a list of tagged pairs over local node indices, and an
ordered list of exclusively owned child graphs. -/
inductive tgStructure : Type where
  | mk (nodes : List Vec3) (pairs : List Pair) (children : List tgStructure)

/-- Nodes owned directly by this scope. -/
def tgStructure.nodes : tgStructure → List Vec3
  | .mk ns _ _ => ns

/-- Pairs owned directly by this scope. -/
def tgStructure.pairs : tgStructure → List Pair
  | .mk _ ps _ => ps

/-- Child graphs owned by this scope. -/
def tgStructure.children : tgStructure → List tgStructure
  | .mk _ _ cs => cs

/-- Error raised when a pair is added with a node index outside its
scope. -/
inductive BuildError where
  | invalidIndex (i j : Nat)
deriving DecidableEq, Repr

/-- Errors aborting graph resolution: an element none of whose tags is
registered, or a pair index outside its scope, both identifying the
offending pair. -/
inductive ResolveError where
  | unresolvedTag (pairIndex : Nat) (tags : List String)
  | invalidIndex (pairIndex : Nat)
deriving DecidableEq, Repr

/-- A resolved physics entity: the two endpoint positions the matched
pair builder receives, with the pair's tags kept for categorical
lookup. -/
structure Entity where
  endpoint1 : Vec3
  endpoint2 : Vec3
  tags : List String
deriving DecidableEq, Repr

/-- The resolved, live counterpart of a graph: its own entities plus
the resolved children, mirroring the graph tree. -/
inductive RuntimeObject : Type where
  | mk (entities : List Entity) (children : List RuntimeObject)

/-- Entities owned directly by this runtime object. -/
def RuntimeObject.entities : RuntimeObject → List Entity
  | .mk es _ => es

/-- Modelled from the spec: tgStructure::addNode appends a node,
indices being assigned in insertion order within the scope. -/
def tgStructure.addNode (s : tgStructure) (x y z : ℚ) : tgStructure :=
  .mk (s.nodes ++ [⟨x, y, z⟩]) s.pairs s.children

/-- Recording of a pair whose indices are already known to be in
range: the successful outcome of addPair, used directly when embedding
the UpperLimbModel calls, all of which are in range. -/
def tgStructure.addPairRaw (s : tgStructure) (i j : Nat) (tags : List String) :
    tgStructure :=
  .mk s.nodes (s.pairs ++ [⟨i, j, tags⟩]) s.children

/-- Modelled from the spec: tgStructure::addPair fails with
InvalidIndex when i or j is outside 0..n-1 for this scope, and
otherwise records the pair with its tag set. -/
def tgStructure.addPair (s : tgStructure) (i j : Nat) (tags : List String) :
    Except BuildError tgStructure :=
  if i < s.nodes.length ∧ j < s.nodes.length then .ok (s.addPairRaw i j tags)
  else .error (.invalidIndex i j)

mutual
/-- Modelled from the spec: tgStructure::move applies the offset
immediately to all currently owned nodes and, recursively, to all
descendant graphs. -/
def tgStructure.move (v : Vec3) : tgStructure → tgStructure
  | .mk ns ps cs => .mk (ns.map (Vec3.add v)) ps (tgStructure.moveList v cs)
def tgStructure.moveList (v : Vec3) : List tgStructure → List tgStructure
  | [] => []
  | c :: cs => tgStructure.move v c :: tgStructure.moveList v cs
end

mutual
/-- All node coordinates stored in a graph, this scope first, then the
descendants in depth-first order. -/
def flatNodes : tgStructure → List Vec3
  | .mk ns _ cs => ns ++ flatNodesList cs
def flatNodesList : List tgStructure → List Vec3
  | [] => []
  | c :: cs => flatNodes c ++ flatNodesList cs
end

mutual
/-- All pairs stored in a graph, this scope first, then the
descendants in depth-first order. -/
def flatPairs : tgStructure → List Pair
  | .mk _ ps cs => ps ++ flatPairsList cs
def flatPairsList : List tgStructure → List Pair
  | [] => []
  | c :: cs => flatPairs c ++ flatPairsList cs
end

mutual
/-- A graph is well formed when every pair of every scope references
node indices inside its own scope, the invariant addPair maintains. -/
def wellFormed : tgStructure → Bool
  | .mk ns ps cs =>
    ps.all (fun p => decide (p.n1 < ns.length) && decide (p.n2 < ns.length)) &&
      wellFormedList cs
def wellFormedList : List tgStructure → Bool
  | [] => true
  | c :: cs => wellFormed c && wellFormedList cs
end

/-- Modelled from the spec: a builder registry is keyed by tag with
exact, case-sensitive string match; an element is resolvable when some
tag of it, in insertion order, is a registered key. -/
def matchesRegistry (R : List String) (tags : List String) : Bool :=
  tags.any (fun t => R.contains t)

/-- Modelled from the spec: resolution of the pairs of one scope, in
insertion order, numbering pairs from idx. A pair whose indices are
outside the scope aborts with InvalidIndex; a pair none of whose tags
is registered aborts with UnresolvedTag identifying the pair and its
tags; otherwise the matched builder receives the two already resolved
endpoints and produces one entity. -/
def resolvePairs (R : List String) (ns : List Vec3) :
    List Pair → Nat → Except ResolveError (List Entity)
  | [], _ => .ok []
  | p :: ps, idx =>
    if hin : p.n1 < ns.length ∧ p.n2 < ns.length then
      if matchesRegistry R p.tags then
        match resolvePairs R ns ps (idx + 1) with
        | .ok es => .ok (⟨ns.get ⟨p.n1, hin.1⟩, ns.get ⟨p.n2, hin.2⟩, p.tags⟩ :: es)
        | .error err => .error err
      else .error (.unresolvedTag idx p.tags)
    else .error (.invalidIndex idx)

mutual
/-- Modelled from the spec: depth-first resolution of a graph against
a registry. Each scope resolves its local nodes (bare geometric
points), then its local pairs, then recurses into the children,
aggregating their runtime objects as owned children; the first failing
element aborts the whole resolution. -/
def resolveStructure (R : List String) :
    tgStructure → Except ResolveError RuntimeObject
  | .mk ns ps cs =>
    match resolvePairs R ns ps 0 with
    | .error err => .error err
    | .ok es =>
      match resolveChildren R cs with
      | .error err => .error err
      | .ok ros => .ok (.mk es ros)
def resolveChildren (R : List String) :
    List tgStructure → Except ResolveError (List RuntimeObject)
  | [] => .ok []
  | c :: cs =>
    match resolveStructure R c with
    | .error err => .error err
    | .ok ro =>
      match resolveChildren R cs with
      | .error err => .error err
      | .ok ros => .ok (ro :: ros)
end

/-- The World holds the runtime objects installed so far. -/
structure World where
  models : List RuntimeObject

/-- Modelled from the spec: addModel resolves the graph and inserts
the resulting Runtime Object into the World; a resolution failure
returns the error and installs nothing. -/
def World.addModel (w : World) (R : List String) (G : tgStructure) :
    Except ResolveError World :=
  match resolveStructure R G with
  | .ok ro => .ok ⟨w.models ++ [ro]⟩
  | .error err => .error err

/-- Shift of one resolved entity by an offset. -/
def shiftEntity (v : Vec3) (en : Entity) : Entity :=
  ⟨Vec3.add v en.endpoint1, Vec3.add v en.endpoint2, en.tags⟩

mutual
/-- Shift of every entity position in a runtime object tree by an
offset. -/
def shiftRO (v : Vec3) : RuntimeObject → RuntimeObject
  | .mk es ros => .mk (es.map (shiftEntity v)) (shiftROList v ros)
def shiftROList (v : Vec3) : List RuntimeObject → List RuntimeObject
  | [] => []
  | r :: rs => shiftRO v r :: shiftROList v rs
end

/-! ## Runtime model tree lifecycle

UpperLimbModel's lifecycle bodies are in UpperLimbModel.cpp; the
tgModel child recursion and the tgSubject notification calls they make
are modelled from the specification. Observers are identified by
natural numbers, kept in attachment order. Lifecycle behaviour is
rendered as the list of externally visible events each call emits. -/

/-- Lifecycle states of a Runtime Object. -/
inductive LifecycleState where
  | unbuilt
  | setUp
  | stepping
  | tornDown
deriving DecidableEq, Repr

/-- Externally visible lifecycle events: building and registering the
object's own physics entities with the World, notifying one attached
observer, and releasing engine-level handles. -/
inductive Event where
  | buildRegister
  | obsSetup (o : Nat)
  | obsStep (o : Nat) (dt : ℚ)
  | obsTeardown (o : Nat)
  | releaseHandles
deriving DecidableEq, Repr

/-- A Runtime Object: attached observers in attachment order, owned
children, and its lifecycle state. -/
inductive Model : Type where
  | mk (observers : List Nat) (children : List Model) (state : LifecycleState)

/-- Observers attached to this object, in attachment order. -/
def Model.observers : Model → List Nat
  | .mk os _ _ => os

/-- Children owned by this object. -/
def Model.children : Model → List Model
  | .mk _ cs _ => cs

/-- Lifecycle state of this object. -/
def Model.state : Model → LifecycleState
  | .mk _ _ st => st

/-- Modelled from the spec: tgSubject::notifySetup calls onSetup on
each attached observer, in attachment order. -/
def notifySetup (m : Model) : List Event :=
  m.observers.map Event.obsSetup

/-- Modelled from the spec: tgSubject::notifyStep calls onStep with
the given dt on each attached observer, in attachment order. -/
def notifyStep (m : Model) (dt : ℚ) : List Event :=
  m.observers.map (fun o => Event.obsStep o dt)

/-- Modelled from the spec: tgSubject::notifyTeardown calls onTeardown
on each attached observer, in attachment order. -/
def notifyTeardown (m : Model) : List Event :=
  m.observers.map Event.obsTeardown

mutual
/-- UpperLimbModel::setup (UpperLimbModel.cpp lines 213-265): the
structure and build spec are assembled, tgStructureInfo::buildInto
builds this object's physics entities and registers them with the
World (buildRegister), then notifySetup notifies the attached
observers, then tgModel::setup sets up the children. -/
def setupTrace : Model → List Event
  | .mk os cs _ =>
    Event.buildRegister :: (os.map Event.obsSetup ++ setupChildren cs)
/-- Modelled from the spec: tgModel::setup recurses into the owned
children in order. -/
def setupChildren : List Model → List Event
  | [] => []
  | c :: cs => setupTrace c ++ setupChildren cs
end

mutual
/-- UpperLimbModel::step (UpperLimbModel.cpp lines 267-277): dt at
most 0 throws std::invalid_argument before anything is notified;
otherwise notifyStep notifies the attached observers, then
tgModel::step steps the children. -/
def stepTrace (dt : ℚ) : Model → Except CtrlError (List Event)
  | .mk os cs _ =>
    if dt ≤ 0 then .error .invalidArgument
    else
      match stepChildren dt cs with
      | .error err => .error err
      | .ok ct => .ok (os.map (fun o => Event.obsStep o dt) ++ ct)
/-- Modelled from the spec: tgModel::step steps each owned child in
order with the same dt. -/
def stepChildren (dt : ℚ) : List Model → Except CtrlError (List Event)
  | [] => .ok []
  | c :: cs =>
    match stepTrace dt c with
    | .error err => .error err
    | .ok t =>
      match stepChildren dt cs with
      | .error err => .error err
      | .ok ts => .ok (t ++ ts)
end

mutual
/-- UpperLimbModel::teardown (UpperLimbModel.cpp lines 289-293):
notifyTeardown notifies the attached observers, then tgModel::teardown
recurses into the children and releases the engine-level handles,
moving the object to Torn Down. Modelled from the spec, the lifecycle
transitions to Torn Down exactly once: tearing down an object already
in Torn Down is a no-op. -/
def teardownTrace : Model → List Event × Model
  | .mk os cs st =>
    if st = .tornDown then ([], .mk os cs st)
    else
      let ct := teardownChildren cs
      (os.map Event.obsTeardown ++ ct.1 ++ [Event.releaseHandles],
        .mk os ct.2 .tornDown)
/-- Modelled from the spec: tgModel::teardown tears down each owned
child in order. -/
def teardownChildren : List Model → List Event × List Model
  | [] => ([], [])
  | c :: cs =>
    let t := teardownTrace c
    let ts := teardownChildren cs
    (t.1 ++ ts.1, t.2 :: ts.2)
end

/-- One event of the simulation loop: an event of the model tree's
step, or the physics engine integrating increment k. -/
inductive SimEv where
  | ev (e : Event)
  | integrate (k : Nat)
deriving DecidableEq, Repr

/-- Modelled from the spec: tgSimulation::run advances the physics
engine and the model tree in lock-step; for each increment k, the
model tree is stepped with the configured dt (notifying controllers),
then the physics engine integrates that increment. -/
def runSim (m : Model) (dt : ℚ) : Nat → Except CtrlError (List SimEv)
  | 0 => .ok []
  | n + 1 =>
    match runSim m dt n with
    | .error err => .error err
    | .ok tr =>
      match stepTrace dt m with
      | .error err => .error err
      | .ok B => .ok (tr ++ (B.map SimEv.ev ++ [SimEv.integrate n]))

/-! ## The UpperLimbModel structure (UpperLimbModel.cpp) -/

namespace UpperLimb

/-- Scale constant of UpperLimbModel::addNodes. -/
def scale : ℚ := 1/2

/-- Bone scale constant of UpperLimbModel::addNodes. -/
def bone_scale : ℚ := 3/10

/-- Ulna length, 334 scaled (UpperLimbModel.cpp line 111). -/
def b : ℚ := 334 * scale * bone_scale

/-- Humerus length, 265 scaled (UpperLimbModel.cpp line 112). -/
def c : ℚ := 265 * scale * bone_scale

/-- Ulna proximal width, 17 scaled (UpperLimbModel.cpp line 113). -/
def g : ℚ := 17 * scale

/-- Quarter of the proximal width (UpperLimbModel.cpp line 114). -/
def e : ℚ := g / 4

/-- The 14 node positions pushed by UpperLimbModel::addNodes
(UpperLimbModel.cpp lines 118-137): olecranon, ulna-radius, humerus,
top of humerus. -/
def nodePositions : List Vec3 :=
  [⟨0, 0, 0⟩, ⟨-g, g, 0⟩, ⟨g, g, 0⟩, ⟨g, -g, 0⟩,
   ⟨3*e, 0, g⟩, ⟨3*e, 0, -g⟩, ⟨7*e, 0, 0⟩, ⟨b + 7*e, 0, 0⟩,
   ⟨0, 3*e, g⟩, ⟨0, 3*e, -g⟩, ⟨0, 7*e, 0⟩, ⟨0, c + 7*e, 0⟩,
   ⟨0, c + 7*e + g, g⟩, ⟨0, c + 7*e + g, -g⟩]

/-- UpperLimbModel::addNodes (UpperLimbModel.cpp lines 104-147): adds
the 14 positions to the structure in order. -/
def addNodes (s : tgStructure) : tgStructure :=
  nodePositions.foldl (fun t p => t.addNode p.x p.y p.z) s

/-- UpperLimbModel::addRods (UpperLimbModel.cpp lines 149-166): the
olecranon, ulna-radius and humerus rod pairs with their tag strings as
written in the source. -/
def addRods (s : tgStructure) : tgStructure :=
  let s := s.addPairRaw 0 1 ["bone"]
  let s := s.addPairRaw 0 2 ["bone"]
  let s := s.addPairRaw 0 3 ["bone"]
  let s := s.addPairRaw 4 6 ["bone"]
  let s := s.addPairRaw 5 6 ["bone"]
  let s := s.addPairRaw 6 7 ["bone"]
  let s := s.addPairRaw 8 10 ["humerus massless"]
  let s := s.addPairRaw 9 10 ["humerus massless"]
  let s := s.addPairRaw 10 11 ["humerus massless"]
  let s := s.addPairRaw 11 12 ["humerus massless"]
  let s := s.addPairRaw 11 13 ["humerus massless"]
  s

/-- UpperLimbModel::addMuscles (UpperLimbModel.cpp lines 168-196): the
muscle pairs with their tag strings exactly as written in the source,
including the misspelled "right anocneus  muscle". -/
def addMuscles (s : tgStructure) : tgStructure :=
  let s := s.addPairRaw 6 2 ["olecranon muscle"]
  let s := s.addPairRaw 6 3 ["olecranon muscle"]
  let s := s.addPairRaw 4 0 ["olecranon muscle"]
  let s := s.addPairRaw 4 2 ["olecranon muscle"]
  let s := s.addPairRaw 4 3 ["olecranon muscle"]
  let s := s.addPairRaw 4 8 ["right anocneus  muscle"]
  let s := s.addPairRaw 5 0 ["olecranon muscle"]
  let s := s.addPairRaw 5 2 ["olecranon muscle"]
  let s := s.addPairRaw 5 3 ["olecranon muscle"]
  let s := s.addPairRaw 5 9 ["left anconeus muscle"]
  let s := s.addPairRaw 8 0 ["olecranon muscle"]
  let s := s.addPairRaw 8 1 ["olecranon muscle"]
  let s := s.addPairRaw 8 2 ["olecranon muscle"]
  let s := s.addPairRaw 9 0 ["olecranon muscle"]
  let s := s.addPairRaw 9 1 ["olecranon muscle"]
  let s := s.addPairRaw 9 2 ["olecranon muscle"]
  let s := s.addPairRaw 10 1 ["olecranon muscle"]
  let s := s.addPairRaw 10 2 ["brachioradialis muscle"]
  s

/-- The structure UpperLimbModel::setup builds (UpperLimbModel.cpp
lines 227-235): an empty structure filled by addNodes, addRods and
addMuscles, then moved out of the ground by the offset (0, 50, 0). -/
def structureBuilt : tgStructure :=
  (addMuscles (addRods (addNodes (.mk [] [] [])))).move ⟨0, 50, 0⟩

/-- The six builder tags UpperLimbModel::setup registers in its
tgBuildSpec (UpperLimbModel.cpp lines 238-244). -/
def registry : List String :=
  ["bone", "massless", "olecranon muscle", "anconeus muscle",
   "brachioradialis muscle", "support muscle"]

end UpperLimb

end NTRT

namespace NTRT

/-! ## Theorems -/

/-- C9: the T6RestLengthController constructor rejects every negative
restLengthDiff with invalid_argument and produces no controller, and
for every nonnegative restLengthDiff it succeeds and stores the value
unchanged in m_restLengthDiff. -/
theorem t6RestLengthController_make_spec (r : ℚ) :
    (r < 0 → T6RestLengthController.make r = .error .invalidArgument) ∧
    (0 ≤ r → T6RestLengthController.make r = .ok ⟨r⟩) := by
  constructor
  · intro h
    simp [T6RestLengthController.make, h]
  · intro h
    simp [T6RestLengthController.make, not_lt.mpr h]

/-- Witness for C9 at the concrete inputs -1 (rejected) and 2
(accepted, stored unchanged). -/
theorem t6RestLengthController_make_spec_witness :
    T6RestLengthController.make (-1) = .error .invalidArgument ∧
    T6RestLengthController.make 2 = .ok ⟨2⟩ :=
  ⟨(t6RestLengthController_make_spec (-1)).1 (by norm_num),
   (t6RestLengthController_make_spec 2).2 (by norm_num)⟩

/-- C10: for every subject and every positive dt, onStep leaves the
subject (every muscle's rest length and all other actuator state)
unchanged, while onSetup rewrites exactly the rest length of each
muscle, once per muscle of subject.getAllMuscles, to that muscle's
start length minus m_restLengthDiff. -/
theorem t6RestLengthController_step_frame_setup_effect
    (c : T6RestLengthController) (subject : T6Model) (dt : ℚ)
    (hdt : 0 < dt) :
    c.onStep subject dt = .ok subject ∧
    (c.onSetup subject).muscles = subject.muscles.map
      (fun mu => { mu with restLength := mu.startLength - c.m_restLengthDiff }) := by
  constructor
  · simp [T6RestLengthController.onStep, not_le.mpr hdt]
  · rfl

/-- Witness for C10: a two-muscle subject stepped with dt = 1 is
untouched, and onSetup sets each rest length to start length minus
the stored difference of 2. -/
theorem t6RestLengthController_step_frame_setup_effect_witness :
    T6RestLengthController.onStep ⟨2⟩ ⟨[⟨10, 0, 5⟩, ⟨7, 1, 3⟩]⟩ 1 =
      .ok ⟨[⟨10, 0, 5⟩, ⟨7, 1, 3⟩]⟩ ∧
    (T6RestLengthController.onSetup ⟨2⟩ ⟨[⟨10, 0, 5⟩, ⟨7, 1, 3⟩]⟩).muscles =
      [⟨10, 8, 5⟩, ⟨7, 5, 3⟩] := by
  have h := t6RestLengthController_step_frame_setup_effect ⟨2⟩
    ⟨[⟨10, 0, 5⟩, ⟨7, 1, 3⟩]⟩ 1 (by norm_num)
  refine ⟨h.1, ?_⟩
  rw [h.2]
  norm_num

/-- Unfolding of the well-formedness of one scope. -/
theorem wellFormed_mk_iff (ns : List Vec3) (ps : List Pair)
    (cs : List tgStructure) :
    wellFormed (.mk ns ps cs) = true ↔
      (∀ p ∈ ps, p.n1 < ns.length ∧ p.n2 < ns.length) ∧
        wellFormedList cs = true := by
  simp [wellFormed, List.all_eq_true]

/-- Every pair of a scope whose pair resolution succeeded has a
registered tag. -/
theorem resolvePairs_ok_matched (R : List String) (ns : List Vec3)
    (ps : List Pair) :
    ∀ (idx : Nat) (es : List Entity),
      resolvePairs R ns ps idx = .ok es →
      ∀ p ∈ ps, matchesRegistry R p.tags = true := by
  induction ps with
  | nil => simp
  | cons p ps ih =>
    intro idx es h q hq
    rw [resolvePairs] at h
    split at h
    case isTrue hin =>
      split at h
      case isTrue hm =>
        rcases List.mem_cons.mp hq with rfl | hq2
        · exact hm
        · cases hrec : resolvePairs R ns ps (idx + 1) with
          | ok es2 => exact ih (idx + 1) es2 hrec q hq2
          | error e2 => rw [hrec] at h; exact absurd h (by simp)
      case isFalse hm => exact absurd h (by simp)
    case isFalse hin => exact absurd h (by simp)

/-- On a scope whose pairs all reference nodes in range, pair
resolution either succeeds or aborts with an UnresolvedTag error. -/
theorem resolvePairs_ok_or_unres (R : List String) (ns : List Vec3)
    (ps : List Pair) :
    (∀ p ∈ ps, p.n1 < ns.length ∧ p.n2 < ns.length) →
    ∀ idx, (∃ es, resolvePairs R ns ps idx = .ok es) ∨
      (∃ i t, resolvePairs R ns ps idx = .error (.unresolvedTag i t)) := by
  induction ps with
  | nil => intro _ idx; exact .inl ⟨[], rfl⟩
  | cons p ps ih =>
    intro hwf idx
    have hin : p.n1 < ns.length ∧ p.n2 < ns.length := hwf p (by simp)
    have hwf2 : ∀ q ∈ ps, q.n1 < ns.length ∧ q.n2 < ns.length :=
      fun q hq => hwf q (List.mem_cons_of_mem _ hq)
    by_cases hm : matchesRegistry R p.tags
    · rcases ih hwf2 (idx + 1) with ⟨es, hrec⟩ | ⟨i, t, hrec⟩
      · exact .inl ⟨_, by rw [resolvePairs, dif_pos hin, if_pos hm, hrec]⟩
      · exact .inr ⟨i, t, by rw [resolvePairs, dif_pos hin, if_pos hm, hrec]⟩
    · exact .inr ⟨idx, p.tags, by
        rw [resolvePairs, dif_pos hin, if_neg hm]⟩

mutual
/-- Every pair anywhere in a graph whose resolution succeeded has a
registered tag, and likewise for a list of children. -/
theorem resolveStructure_ok_matched (R : List String) :
    (G : tgStructure) → (ro : RuntimeObject) →
    resolveStructure R G = .ok ro →
    ∀ p ∈ flatPairs G, matchesRegistry R p.tags = true
  | .mk ns ps cs, ro, h => by
    rw [resolveStructure] at h
    cases h1 : resolvePairs R ns ps 0 with
    | error e1 => rw [h1] at h; exact absurd h (by simp)
    | ok es =>
      rw [h1] at h
      cases h2 : resolveChildren R cs with
      | error e2 => rw [h2] at h; exact absurd h (by simp)
      | ok ros =>
        intro q hq
        rw [flatPairs] at hq
        rcases List.mem_append.mp hq with hq1 | hq2
        · exact resolvePairs_ok_matched R ns ps 0 es h1 q hq1
        · exact resolveChildren_ok_matched R cs ros h2 q hq2
theorem resolveChildren_ok_matched (R : List String) :
    (cs : List tgStructure) → (ros : List RuntimeObject) →
    resolveChildren R cs = .ok ros →
    ∀ p ∈ flatPairsList cs, matchesRegistry R p.tags = true
  | [], _, _ => by simp [flatPairsList]
  | c :: cs, ros, h => by
    rw [resolveChildren] at h
    cases h1 : resolveStructure R c with
    | error e1 => rw [h1] at h; exact absurd h (by simp)
    | ok ro =>
      rw [h1] at h
      cases h2 : resolveChildren R cs with
      | error e2 => rw [h2] at h; exact absurd h (by simp)
      | ok ros2 =>
        intro q hq
        rw [flatPairsList] at hq
        rcases List.mem_append.mp hq with hq1 | hq2
        · exact resolveStructure_ok_matched R c ro h1 q hq1
        · exact resolveChildren_ok_matched R cs ros2 h2 q hq2
end

mutual
/-- On a well-formed graph, resolution either succeeds or aborts with
an UnresolvedTag error, and likewise for a list of children. -/
theorem resolveStructure_ok_or_unres (R : List String) :
    (G : tgStructure) → wellFormed G = true →
    (∃ ro, resolveStructure R G = .ok ro) ∨
      (∃ i t, resolveStructure R G = .error (.unresolvedTag i t))
  | .mk ns ps cs, hwf => by
    obtain ⟨hps, hcs⟩ := (wellFormed_mk_iff ns ps cs).mp hwf
    rcases resolvePairs_ok_or_unres R ns ps hps 0 with ⟨es, h1⟩ | ⟨i, t, h1⟩
    · rcases resolveChildren_ok_or_unres R cs hcs with ⟨ros, h2⟩ | ⟨i, t, h2⟩
      · exact .inl ⟨.mk es ros, by rw [resolveStructure, h1, h2]⟩
      · exact .inr ⟨i, t, by rw [resolveStructure, h1, h2]⟩
    · exact .inr ⟨i, t, by rw [resolveStructure, h1]⟩
theorem resolveChildren_ok_or_unres (R : List String) :
    (cs : List tgStructure) → wellFormedList cs = true →
    (∃ ros, resolveChildren R cs = .ok ros) ∨
      (∃ i t, resolveChildren R cs = .error (.unresolvedTag i t))
  | [], _ => .inl ⟨[], rfl⟩
  | c :: cs, hwf => by
    obtain ⟨hc, hcs⟩ := Bool.and_eq_true_iff.mp (by simpa [wellFormedList] using hwf)
    rcases resolveStructure_ok_or_unres R c hc with ⟨ro, h1⟩ | ⟨i, t, h1⟩
    · rcases resolveChildren_ok_or_unres R cs hcs with ⟨ros, h2⟩ | ⟨i, t, h2⟩
      · exact .inl ⟨ro :: ros, by rw [resolveChildren, h1, h2]⟩
      · exact .inr ⟨i, t, by rw [resolveChildren, h1, h2]⟩
    · exact .inr ⟨i, t, by rw [resolveChildren, h1]⟩
end

/-- C1: on every well-formed graph with a pair carrying no registered
tag, resolution fails with an UnresolvedTag error identifying the
offending pair and its tags, and adding the graph to any World fails
with the same error, installing nothing. -/
theorem resolve_unresolvedTag_aborts (R : List String) (G : tgStructure)
    (w : World) (hwf : wellFormed G = true)
    (hex : ∃ p ∈ flatPairs G, matchesRegistry R p.tags = false) :
    ∃ i t, resolveStructure R G = .error (.unresolvedTag i t) ∧
      w.addModel R G = .error (.unresolvedTag i t) := by
  rcases resolveStructure_ok_or_unres R G hwf with ⟨ro, hok⟩ | ⟨i, t, herr⟩
  · obtain ⟨p, hp, hf⟩ := hex
    have hmat := resolveStructure_ok_matched R G ro hok p hp
    rw [hmat] at hf
    exact absurd hf (by simp)
  · exact ⟨i, t, herr, by simp [World.addModel, herr]⟩

/-- Witness for C1: the UpperLimbModel structure, whose pairs include
the tag "right anocneus  muscle" while the registry registers only the
six setup tags, makes resolution and model insertion abort with an
UnresolvedTag error; the first offending pair in resolution order is
pair 6, the first humerus rod tagged "humerus massless". -/
theorem resolve_unresolvedTag_aborts_witness :
    resolveStructure UpperLimb.registry UpperLimb.structureBuilt =
      .error (.unresolvedTag 6 ["humerus massless"]) ∧
    World.addModel ⟨[]⟩ UpperLimb.registry UpperLimb.structureBuilt =
      .error (.unresolvedTag 6 ["humerus massless"]) := by
  obtain ⟨i, t, h1, h2⟩ := resolve_unresolvedTag_aborts UpperLimb.registry
    UpperLimb.structureBuilt ⟨[]⟩ (by decide)
    ⟨⟨4, 8, ["right anocneus  muscle"]⟩, by decide, by decide⟩
  have he : resolveStructure UpperLimb.registry UpperLimb.structureBuilt =
      .error (.unresolvedTag 6 ["humerus massless"]) := by rfl
  exact ⟨he, by simp [World.addModel, he]⟩

/-- C8: addPair on any graph scope fails with InvalidIndex exactly
when one of the two node indices is outside 0..n-1 for the n nodes of
that scope, and otherwise records the pair with its tag set, leaving
nodes and children untouched. -/
theorem addPair_indexCheck (s : tgStructure) (i j : Nat)
    (tags : List String) :
    (¬(i < s.nodes.length ∧ j < s.nodes.length) →
      s.addPair i j tags = .error (.invalidIndex i j)) ∧
    ((i < s.nodes.length ∧ j < s.nodes.length) →
      s.addPair i j tags =
        .ok (.mk s.nodes (s.pairs ++ [⟨i, j, tags⟩]) s.children)) := by
  constructor
  · intro h
    simp [tgStructure.addPair, h]
  · intro h
    simp [tgStructure.addPair, h, tgStructure.addPairRaw]

/-- Witness for C8 on a two-node scope: index 5 is rejected with
InvalidIndex, and the in-range pair (1, 0) is recorded. -/
theorem addPair_indexCheck_witness :
    tgStructure.addPair (.mk [⟨0, 0, 0⟩, ⟨1, 1, 1⟩] [] []) 0 5 ["rod"] =
      .error (.invalidIndex 0 5) ∧
    tgStructure.addPair (.mk [⟨0, 0, 0⟩, ⟨1, 1, 1⟩] [] []) 1 0 ["rod"] =
      .ok (.mk [⟨0, 0, 0⟩, ⟨1, 1, 1⟩] [⟨1, 0, ["rod"]⟩] []) :=
  ⟨(addPair_indexCheck (.mk [⟨0, 0, 0⟩, ⟨1, 1, 1⟩] [] []) 0 5 ["rod"]).1
      (by simp [tgStructure.nodes]),
   (addPair_indexCheck (.mk [⟨0, 0, 0⟩, ⟨1, 1, 1⟩] [] []) 1 0 ["rod"]).2
      (by simp [tgStructure.nodes])⟩

mutual
/-- Moving a graph shifts every stored node coordinate, in this scope
and in every descendant, at once. -/
theorem move_flatNodes (v : Vec3) : (s : tgStructure) →
    flatNodes (s.move v) = (flatNodes s).map (Vec3.add v)
  | .mk ns ps cs => by
    simp [flatNodes, tgStructure.move, move_flatNodesList v cs]
theorem move_flatNodesList (v : Vec3) : (cs : List tgStructure) →
    flatNodesList (tgStructure.moveList v cs) =
      (flatNodesList cs).map (Vec3.add v)
  | [] => by simp [flatNodesList, tgStructure.moveList]
  | c :: cs => by
    simp [flatNodesList, tgStructure.moveList, move_flatNodes v c,
      move_flatNodesList v cs]
end

/-- Pair resolution over shifted nodes shifts every produced entity
and preserves every error. -/
theorem resolvePairs_move (R : List String) (v : Vec3) (ns : List Vec3)
    (ps : List Pair) : ∀ idx,
    resolvePairs R (ns.map (Vec3.add v)) ps idx =
      (resolvePairs R ns ps idx).map (List.map (shiftEntity v)) := by
  induction ps with
  | nil => intro idx; rfl
  | cons p ps ih =>
    intro idx
    by_cases hin : p.n1 < ns.length ∧ p.n2 < ns.length
    · have hin2 : p.n1 < (ns.map (Vec3.add v)).length ∧
          p.n2 < (ns.map (Vec3.add v)).length := by simpa using hin
      rw [resolvePairs, resolvePairs, dif_pos hin2, dif_pos hin]
      by_cases hm : matchesRegistry R p.tags
      · rw [if_pos hm, if_pos hm, ih (idx + 1)]
        cases hrec : resolvePairs R ns ps (idx + 1) with
        | ok es => simp [Except.map, shiftEntity, List.getElem_map]
        | error e2 => simp [Except.map]
      · rw [if_neg hm, if_neg hm]; rfl
    · have hin2 : ¬(p.n1 < (ns.map (Vec3.add v)).length ∧
          p.n2 < (ns.map (Vec3.add v)).length) := by simpa using hin
      rw [resolvePairs, resolvePairs, dif_neg hin2, dif_neg hin]; rfl

mutual
/-- Resolving a moved graph is resolving the original graph and
shifting every entity position, errors preserved, and likewise for a
list of children. -/
theorem resolveStructure_move (R : List String) (v : Vec3) :
    (G : tgStructure) →
    resolveStructure R (tgStructure.move v G) =
      (resolveStructure R G).map (shiftRO v)
  | .mk ns ps cs => by
    rw [tgStructure.move, resolveStructure, resolveStructure,
      resolvePairs_move R v ns ps 0, resolveChildren_move R v cs]
    cases h1 : resolvePairs R ns ps 0 with
    | error e1 => simp [Except.map]
    | ok es =>
      cases h2 : resolveChildren R cs with
      | error e2 => simp [Except.map]
      | ok ros => simp [Except.map, shiftRO]
theorem resolveChildren_move (R : List String) (v : Vec3) :
    (cs : List tgStructure) →
    resolveChildren R (tgStructure.moveList v cs) =
      (resolveChildren R cs).map (shiftROList v)
  | [] => by
    simp [tgStructure.moveList, resolveChildren, Except.map, shiftROList]
  | c :: cs => by
    rw [tgStructure.moveList, resolveChildren, resolveChildren,
      resolveStructure_move R v c, resolveChildren_move R v cs]
    cases h1 : resolveStructure R c with
    | error e1 => simp [Except.map]
    | ok ro =>
      cases h2 : resolveChildren R cs with
      | error e2 => simp [Except.map]
      | ok ros => simp [Except.map, shiftROList]
end

/-- C6: move applies the offset immediately to the stored coordinates
of every owned node and every descendant graph, and resolving the
moved graph yields exactly the resolution of the unmoved graph with
every entity position shifted by the offset, errors included. -/
theorem move_immediate_and_resolve_shift (v : Vec3) (G : tgStructure)
    (R : List String) :
    flatNodes (G.move v) = (flatNodes G).map (Vec3.add v) ∧
    resolveStructure R (G.move v) = (resolveStructure R G).map (shiftRO v) :=
  ⟨move_flatNodes v G, resolveStructure_move R v G⟩

mutual
/-- A step with positive dt always succeeds, on every object and on
every list of children. -/
theorem stepTrace_pos_ok (dt : ℚ) (hdt : 0 < dt) :
    (m : Model) → ∃ tr, stepTrace dt m = .ok tr
  | .mk os cs st => by
    obtain ⟨ct, hct⟩ := stepChildren_pos_ok dt hdt cs
    exact ⟨_, by rw [stepTrace, if_neg (not_le.mpr hdt), hct]⟩
theorem stepChildren_pos_ok (dt : ℚ) (hdt : 0 < dt) :
    (cs : List Model) → ∃ tr, stepChildren dt cs = .ok tr
  | [] => ⟨[], rfl⟩
  | c :: cs => by
    obtain ⟨t, ht⟩ := stepTrace_pos_ok dt hdt c
    obtain ⟨ts, hts⟩ := stepChildren_pos_ok dt hdt cs
    exact ⟨t ++ ts, by rw [stepChildren, ht, hts]⟩
end

/-- C2: on every Runtime Object in the Set Up or Stepping state and
every dt at most 0, step fails with invalid_argument before any
observer is notified or any child stepped (the error carries no
events), the object itself is untouched, and it remains steppable: the
same object stepped with any positive dt succeeds. -/
theorem step_nonpositive_dt_fails_keeps_steppable (m : Model) (dt : ℚ)
    (hst : m.state = .setUp ∨ m.state = .stepping) (hdt : dt ≤ 0) :
    stepTrace dt m = .error .invalidArgument ∧
    ∀ dt2, 0 < dt2 → ∃ tr, stepTrace dt2 m = .ok tr := by
  refine ⟨?_, fun dt2 hdt2 => stepTrace_pos_ok dt2 hdt2 m⟩
  cases m with
  | mk os cs st => rw [stepTrace, if_pos hdt]

/-- Witness for C2: a two-observer object in Set Up state rejects
dt = 0 and still steps with dt = 1 afterwards, notifying both
observers. -/
theorem step_nonpositive_dt_fails_keeps_steppable_witness :
    stepTrace 0 (.mk [0, 1] [] .setUp) = .error .invalidArgument ∧
    stepTrace 1 (.mk [0, 1] [] .setUp) =
      .ok [.obsStep 0 1, .obsStep 1 1] :=
  ⟨(step_nonpositive_dt_fails_keeps_steppable (.mk [0, 1] [] .setUp) 0
      (.inl rfl) le_rfl).1, by rfl⟩

/-- C4: on every Runtime Object and every positive dt, step succeeds
and its event trace is exactly the onStep notifications of the
attached observers, in attachment order, followed by the events of the
owned children's steps: the recursion into the children happens only
after the last observer notification. -/
theorem step_notifies_then_steps_children (m : Model) (dt : ℚ)
    (hdt : 0 < dt) :
    ∃ ct, stepChildren dt m.children = .ok ct ∧
      stepTrace dt m = .ok (notifyStep m dt ++ ct) := by
  cases m with
  | mk os cs st =>
    obtain ⟨ct, hct⟩ := stepChildren_pos_ok dt hdt cs
    refine ⟨ct, by simpa [Model.children] using hct, ?_⟩
    rw [stepTrace, if_neg (not_le.mpr hdt), hct]
    simp [notifyStep, Model.observers]

/-- Witness for C4: an object with observers 5 and 7 and a one-child
tree stepped with dt = 2 notifies 5 then 7, then the child's observer
9. -/
theorem step_notifies_then_steps_children_witness :
    stepChildren 2 (Model.children (.mk [5, 7] [.mk [9] [] .setUp] .stepping)) =
      .ok [.obsStep 9 2] ∧
    stepTrace 2 (.mk [5, 7] [.mk [9] [] .setUp] .stepping) =
      .ok [.obsStep 5 2, .obsStep 7 2, .obsStep 9 2] := by
  obtain ⟨ct, hct, htr⟩ := step_notifies_then_steps_children
    (.mk [5, 7] [.mk [9] [] .setUp] .stepping) 2 (by norm_num)
  have hc : stepChildren 2
      (Model.children (.mk [5, 7] [.mk [9] [] .setUp] .stepping)) =
      .ok [.obsStep 9 2] := by rfl
  refine ⟨hc, ?_⟩
  rw [hc] at hct
  cases hct
  simpa [notifyStep, Model.observers] using htr

/-- C3: invoking setup on every Runtime Object first builds and
registers the object's own physics entities, and only then notifies
the attached observers' onSetup, in attachment order, each exactly
once (one notification per attachment, and as many notifications of
observer o as there are attachments of o), before setting up the
children. -/
theorem setup_builds_then_notifies_once_in_order (m : Model) :
    setupTrace m =
      Event.buildRegister :: (notifySetup m ++ setupChildren m.children) ∧
    (setupTrace m)[0]? = some Event.buildRegister ∧
    (∀ i : Nat, (notifySetup m)[i]? =
      (m.observers[i]?).map Event.obsSetup) ∧
    (∀ o, (notifySetup m).count (.obsSetup o) = m.observers.count o) := by
  cases m with
  | mk os cs st =>
    refine ⟨rfl, by simp [setupTrace], ?_, ?_⟩
    · intro i
      simp [notifySetup, Model.observers, List.getElem?_map]
    · intro o
      have hinj : Function.Injective Event.obsSetup := by
        intro a b h
        cases h
        rfl
      simpa [notifySetup, Model.observers] using
        List.count_map_of_injective os Event.obsSetup hinj o

/-- C7: the first teardown of every Runtime Object in the Set Up or
Stepping state notifies the attached observers' onTeardown, then
recurses into the owned children's teardown and releases the
engine-level handles, transitioning the object to Torn Down; tearing
down the resulting object again produces no events and no further
change. -/
theorem teardown_once_then_noop (m : Model)
    (hst : m.state = .setUp ∨ m.state = .stepping) :
    (teardownTrace m).1 =
      notifyTeardown m ++ (teardownChildren m.children).1 ++
        [Event.releaseHandles] ∧
    (teardownTrace m).2.state = .tornDown ∧
    teardownTrace (teardownTrace m).2 = ([], (teardownTrace m).2) := by
  cases m with
  | mk os cs st =>
    have hne : ¬(st = LifecycleState.tornDown) := by
      rcases hst with h | h <;> simp [Model.state] at h <;> simp [h]
    rw [teardownTrace, if_neg hne]
    refine ⟨by simp [notifyTeardown, Model.observers, Model.children], ?_, ?_⟩
    · rfl
    · rw [teardownTrace]
      simp [Model.state]

/-- Witness for C7: a stepping object with observers 1 and 2 and one
set-up child with observer 3 tears down by notifying 1, 2, then the
child's 3, releasing handles, and a second teardown of the result is a
no-op. -/
theorem teardown_once_then_noop_witness :
    (teardownTrace (.mk [1, 2] [.mk [3] [] .setUp] .stepping)).1 =
      notifyTeardown (.mk [1, 2] [.mk [3] [] .setUp] .stepping) ++
        (teardownChildren
          (Model.children (.mk [1, 2] [.mk [3] [] .setUp] .stepping))).1 ++
        [Event.releaseHandles] ∧
    (teardownTrace (.mk [1, 2] [.mk [3] [] .setUp] .stepping)).2.state =
      .tornDown ∧
    teardownTrace (teardownTrace (.mk [1, 2] [.mk [3] [] .setUp] .stepping)).2 =
      ([], (teardownTrace (.mk [1, 2] [.mk [3] [] .setUp] .stepping)).2) :=
  teardown_once_then_noop (.mk [1, 2] [.mk [3] [] .setUp] .stepping) (.inr rfl)

/-- Every successful run of n increments produces, for each increment
k below n, the block of the model-tree step events followed by the
integration of increment k, laid out strictly sequentially. -/
theorem runSim_ok_blocks (m : Model) (dt : ℚ) (B : List Event)
    (hB : stepTrace dt m = .ok B) (n : Nat) :
    ∃ tr, runSim m dt n = .ok tr ∧
      tr.length = n * (B.length + 1) ∧
      ∀ k, k < n →
        (tr.drop (k * (B.length + 1))).take (B.length + 1) =
          B.map SimEv.ev ++ [SimEv.integrate k] := by
  induction n with
  | zero => exact ⟨[], rfl, by simp, by simp⟩
  | succ n ih =>
    obtain ⟨tr, hrun, hlen, hblocks⟩ := ih
    refine ⟨tr ++ (B.map SimEv.ev ++ [SimEv.integrate n]), ?_, ?_, ?_⟩
    · rw [runSim, hrun, hB]
    · simp [hlen, Nat.succ_mul]
    · intro k hk
      have hblk : (B.map SimEv.ev ++ [SimEv.integrate n]).length =
          B.length + 1 := by simp
      rcases Nat.lt_succ_iff_lt_or_eq.mp hk with hk2 | rfl
      · have h1 : k * (B.length + 1) ≤ tr.length := by
          rw [hlen]
          exact Nat.mul_le_mul_right _ (Nat.le_of_lt hk2)
        have h2 : B.length + 1 ≤ (tr.drop (k * (B.length + 1))).length := by
          rw [List.length_drop, hlen]
          have h3 : k * (B.length + 1) + (B.length + 1) ≤
              n * (B.length + 1) := by
            have h4 := Nat.mul_le_mul_right (B.length + 1)
              (Nat.succ_le_of_lt hk2)
            simpa [Nat.succ_mul] using h4
          omega
        rw [List.drop_append_of_le_length h1,
          List.take_append_of_le_length h2]
        exact hblocks k hk2
      · rw [show k * (B.length + 1) = tr.length by rw [hlen],
          List.drop_left, ← hblk, List.take_length]

/-- C5: for every positive dt and every steps of at least 1, run
executes exactly steps increments strictly sequentially: the run trace
has one block per increment, in increasing order, and within the block
of increment k every event of the model-tree step (all observer onStep
notifications, by the step theorem) precedes the physics engine's
integration of increment k, which closes the block before increment
k+1 begins. -/
theorem run_lockstep_notify_before_integrate (m : Model) (dt : ℚ)
    (steps : Nat) (hdt : 0 < dt) (_hsteps : 1 ≤ steps) :
    ∃ tr B, stepTrace dt m = .ok B ∧ runSim m dt steps = .ok tr ∧
      tr.length = steps * (B.length + 1) ∧
      ∀ k, k < steps →
        (tr.drop (k * (B.length + 1))).take (B.length + 1) =
          B.map SimEv.ev ++ [SimEv.integrate k] := by
  obtain ⟨B, hB⟩ := stepTrace_pos_ok dt hdt m
  obtain ⟨tr, hrun, hlen, hblocks⟩ := runSim_ok_blocks m dt B hB steps
  exact ⟨tr, B, hB, hrun, hlen, hblocks⟩

/-- Witness for C5: a one-observer object run for 2 increments with
dt = 1 produces the block of increment 0 (notify observer 0, then
integrate 0) strictly before the block of increment 1. -/
theorem run_lockstep_notify_before_integrate_witness :
    runSim (.mk [0] [] .setUp) 1 2 =
      .ok [.ev (.obsStep 0 1), .integrate 0, .ev (.obsStep 0 1),
        .integrate 1] := by
  obtain ⟨tr, B, hB, hrun, hlen, hblocks⟩ :=
    run_lockstep_notify_before_integrate (.mk [0] [] .setUp) 1 2
      (by norm_num) (by norm_num)
  rfl

end NTRT
